import Mathlib

/-!
Verification development for the `claude_code_transcripts` pattern-mining
pipeline (prompt extraction → classification → batch analysis → merge →
review → render).  Python values that flow through the untyped parts of the
pipeline (parsed session logs, raw model responses) are embedded as `PyVal`;
operations that can raise in Python return `Except String`.  Dataclasses
(`Pattern`, `AnalysisResult`) are embedded as Lean structures.  Python
strings are manipulated through their character lists; `re.IGNORECASE`
matching of the ASCII rule patterns is embedded by lowercasing the text once
(ASCII case folding) and matching the lowercase patterns.
-/

/-- A Python value as it appears in parsed JSON session logs and raw model
responses: strings, ints, bools, `None`, lists and (insertion-ordered)
dicts. -/
inductive PyVal where
  | pstr (s : String)
  | pint (n : Int)
  | pbool (b : Bool)
  | pnone
  | plist (xs : List PyVal)
  | pdict (kvs : List (String × PyVal))

/-- `d.get(k, dflt)` on a Python value: raises (returns `.error`) when the
value is not a dict, as attribute access does in Python. -/
def pyGetD (v : PyVal) (k : String) (dflt : PyVal) : Except String PyVal :=
  match v with
  | .pdict kvs =>
      match kvs.find? (fun kv => kv.1 == k) with
      | some kv => .ok kv.2
      | none => .ok dflt
  | _ => .error "AttributeError"

/-- Python `v == s` for a string literal `s`: true exactly when `v` is the
string `s` (a non-string value never equals a string). -/
def isStrVal (v : PyVal) (s : String) : Bool :=
  match v with
  | .pstr t => t == s
  | _ => false

/-- Coerce a Python value expected to be a string; non-strings are treated
as a shape error. -/
def asStr (v : PyVal) : Except String String :=
  match v with
  | .pstr s => .ok s
  | _ => .error "TypeError"

/-- Coerce a Python value expected to be a list. -/
def asList (v : PyVal) : Except String (List PyVal) :=
  match v with
  | .plist xs => .ok xs
  | _ => .error "TypeError"

/-- Map a fallible operation over a list, stopping at the first raised
exception (the semantics of a Python loop over the list). -/
def exMapM (f : α → Except String β) : List α → Except String (List β)
  | [] => .ok []
  | a :: t => do
      let b ← f a
      let bs ← exMapM f t
      return b :: bs

/-- Coerce a Python value expected to be a list of strings. -/
def asStrList (v : PyVal) : Except String (List String) :=
  match v with
  | .plist xs => exMapM asStr xs
  | _ => .error "TypeError"

-- ASCII lowercasing, the case folding relevant to the ASCII rule patterns
-- compiled with `re.IGNORECASE`.

/-- ASCII lowercase of one character. -/
def asciiLower (c : Char) : Char :=
  if 'A' ≤ c ∧ c ≤ 'Z' then Char.ofNat (c.toNat + 32) else c

/-- ASCII lowercase of a character list. -/
def lowerChars (l : List Char) : List Char := l.map asciiLower

/-- The characters matched by the regex class `\s` (ASCII range). -/
def isPySpace (c : Char) : Bool :=
  c == ' ' || c == '\t' || c == '\n' || c == '\r' || c == '\x0b' || c == '\x0c'

/-- The characters matched by the regex class `\w` (ASCII range). -/
def isPyWord (c : Char) : Bool :=
  ('a' ≤ c && c ≤ 'z') || ('A' ≤ c && c ≤ 'Z') || ('0' ≤ c && c ≤ '9') || c == '_'

/-- `sub` occurs as a contiguous subsequence of `l` (an unanchored regex
literal search). -/
def containsSeq (sub : List Char) : List Char → Bool
  | [] => sub.isEmpty
  | c :: t => sub.isPrefixOf (c :: t) || containsSeq sub t

/-- Anchored match `^w[,\s]`: the text starts with `w` followed by a comma
or a whitespace character. -/
def anchoredThenSep (w : List Char) (l : List Char) : Bool :=
  w.isPrefixOf l &&
    (match l.drop w.length with
     | c :: _ => c == ',' || isPySpace c
     | [] => false)

/-- Unanchored match `w[,\s]`: some occurrence of `w` in the text is
followed by a comma or a whitespace character. -/
def containsThenSep (w : List Char) : List Char → Bool
  | [] => false
  | c :: t => anchoredThenSep w (c :: t) || containsThenSep w t

/-- Unanchored match `w\s`: some occurrence of `w` is followed by a
whitespace character. -/
def containsThenSpace (w : List Char) : List Char → Bool
  | [] => false
  | c :: t =>
      (w.isPrefixOf (c :: t) &&
        (match (c :: t).drop w.length with
         | d :: _ => isPySpace d
         | [] => false)) || containsThenSpace w t

/-- Consume one or more `\s` characters; `none` when the text does not
start with one. -/
def dropSpaces1 (l : List Char) : Option (List Char) :=
  match l with
  | c :: t => if isPySpace c then some (t.dropWhile isPySpace) else none
  | [] => none

/-- Consume one or more `\w` characters; `none` when the text does not
start with one. -/
def dropWord1 (l : List Char) : Option (List Char) :=
  match l with
  | c :: t => if isPyWord c then some (t.dropWhile isPyWord) else none
  | [] => none

/-- Anchored match of `use\s+\w+\s+instead of` at the head of the text.
Since `\s` and `\w` are disjoint, the greedy match is exact. -/
def useInsteadAt (l : List Char) : Bool :=
  "use".toList.isPrefixOf l &&
    (match dropSpaces1 (l.drop 3) with
     | some l2 =>
         match dropWord1 l2 with
         | some l3 =>
             match dropSpaces1 l3 with
             | some l4 => "instead of".toList.isPrefixOf l4
             | none => false
         | none => false
     | none => false)

/-- Unanchored search for `use\s+\w+\s+instead of`. -/
def containsUseInstead : List Char → Bool
  | [] => false
  | c :: t => useInsteadAt (c :: t) || containsUseInstead t

/-- The ordered correction rules (`CORRECTION_PATTERNS`), each embedded as
a matcher over the lowercased text. -/
def correctionMatchers : List (List Char → Bool) :=
  [ anchoredThenSep "no".toList,
    anchoredThenSep "actually".toList,
    anchoredThenSep "wait".toList,
    anchoredThenSep "sorry".toList,
    fun l => containsSeq "change this to".toList l ||
      containsSeq "change that to".toList l || containsSeq "change it to".toList l,
    containsThenSep "instead".toList,
    fun l => "no like that".toList.isPrefixOf l || "not like that".toList.isPrefixOf l,
    containsSeq "i meant".toList,
    fun l => containsSeq "that\x27s not right".toList l ||
      containsSeq "that\x27s not correct".toList l ||
      containsSeq "that\x27s not what i".toList l,
    fun l => "undo".toList.isPrefixOf l,
    fun l => "revert".toList.isPrefixOf l,
    containsSeq "go back to".toList ]

/-- The ordered instruction rules (`INSTRUCTION_PATTERNS`). -/
def instructionMatchers : List (List Char → Bool) :=
  [ containsThenSpace "always".toList,
    containsThenSpace "never".toList,
    fun l => containsSeq "make sure to".toList l || containsSeq "make sure you".toList l,
    containsSeq "don\x27t forget".toList,
    containsSeq "remember to".toList,
    containsThenSpace "prefer".toList,
    containsUseInstead,
    fun l => containsSeq "i like".toList l || containsSeq "i want".toList l ||
      containsSeq "i prefer".toList l,
    fun l => containsSeq "should be".toList l || containsSeq "should have".toList l ||
      containsSeq "should use".toList l || containsSeq "must be".toList l ||
      containsSeq "must have".toList l || containsSeq "must use".toList l ]

/-- `classify_prompt`: classify a user prompt as instruction, correction,
or general.  Empty text is general; correction rules are checked before
instruction rules. -/
def classify_prompt (text : String) : String :=
  if text.toList.isEmpty then "general"
  else
    let lt := lowerChars text.toList
    if correctionMatchers.any (fun m => m lt) then "correction"
    else if instructionMatchers.any (fun m => m lt) then "instruction"
    else "general"

-- ## Data model (`pattern_analyzer.py`)

/-- `PREDEFINED_CATEGORIES`: the fixed, insertion-ordered table of
predefined categories (name → description). -/
def PREDEFINED_CATEGORIES : List (String × String) :=
  [ ("coding_style", "Naming conventions, formatting, code style preferences"),
    ("architecture", "File structure, design patterns, project organization"),
    ("testing", "Testing approaches, coverage expectations, test patterns"),
    ("documentation", "Comments, README, JSDoc, docstrings preferences"),
    ("workflow", "Git practices, PR conventions, commit style"),
    ("tools", "Preferred libraries, frameworks, dependencies"),
    ("communication", "How you prefer Claude to respond, verbosity, explanations"),
    ("error_handling", "Exception handling, validation, error messages"),
    ("performance", "Optimization preferences, caching, efficiency"),
    ("ui_ux", "User interface patterns, design choices, accessibility") ]

/-- The keys of `PREDEFINED_CATEGORIES` in declared order
(`list(PREDEFINED_CATEGORIES.keys())`). -/
def predefinedOrder : List String := PREDEFINED_CATEGORIES.map Prod.fst

/-- `Pattern`: a discovered preference pattern.  `approved` is the
tri-state review decision (`None` = not reviewed). -/
structure Pattern where
  summary : String
  examples : List String
  confidence : String
  category : String
  approved : Option Bool := none
deriving DecidableEq, Repr

/-- `AnalysisResult`: the sole unit of persisted state.
`custom_categories` is an insertion-ordered dict name → description. -/
structure AnalysisResult where
  patterns : List Pattern := []
  custom_categories : List (String × String) := []
  total_prompts_analyzed : Int := 0
  sessions_analyzed : Int := 0
deriving DecidableEq, Repr

/-- `d[k] = v` on an insertion-ordered Python dict: update in place when
the key exists, append otherwise. -/
def dictSet (d : List (String × String)) (k v : String) : List (String × String) :=
  if d.any (fun kv => kv.1 == k) then
    d.map (fun kv => if kv.1 == k then (kv.1, v) else kv)
  else d ++ [(k, v)]

-- ## Prompt extraction (`extract_prompts.py`)

/-- A prompt record emitted by the extractor: text, classified type, and
the raw timestamp value of its log entry. -/
structure PromptRec where
  text : String
  type : String
  timestamp : PyVal

/-- Modelled from the spec: `extract_text_from_content` belongs to the
excluded session-parsing collaborator (not under `src/`).  Per the spec it
extracts plain text from the (possibly structured) `message.content`: a
plain string is returned as is; a structured list contributes the `text`
field of each `text`-typed block, joined by newlines; anything else yields
the empty string. -/
def extract_text_from_content (content : PyVal) : String :=
  match content with
  | .pstr s => s
  | .plist xs =>
      String.intercalate "\n"
        (xs.filterMap (fun b =>
          match b with
          | .pdict kvs =>
              match kvs.find? (fun kv => kv.1 == "type") with
              | some (_, .pstr "text") =>
                  match kvs.find? (fun kv => kv.1 == "text") with
                  | some (_, .pstr s) => some s
                  | _ => none
              | _ => none
          | _ => none))
  | _ => ""

/-- Python `str.strip()` over the character list (ASCII whitespace). -/
def pyStrip (l : List Char) : List Char :=
  ((l.dropWhile isPySpace).reverse.dropWhile isPySpace).reverse

/-- One log entry is a tool-result marker block
(`isinstance(b, dict) and b.get("type") == "tool_result"`). -/
def isToolResultBlock (b : PyVal) : Bool :=
  match b with
  | .pdict kvs =>
      match kvs.find? (fun kv => kv.1 == "type") with
      | some (_, v) => isStrVal v "tool_result"
      | none => false
  | _ => false

/-- Process one log entry of the extractor loop.  `.ok none` means the
entry is skipped, `.ok (some pr)` means a prompt record is emitted, and
`.error` models a Python exception raised while handling this entry
(e.g. `entry.get` on a non-dict entry, or `message.get` on a non-dict
message value). -/
def processEntry (entry : PyVal) : Except String (Option PromptRec) := do
  let t ← pyGetD entry "type" .pnone
  if !(isStrVal t "user") then
    return none
  let message ← pyGetD entry "message" (.pdict [])
  let content ← pyGetD message "content" (.pstr "")
  let isToolRes :=
    match content with
    | .plist xs => xs.all isToolResultBlock
    | _ => false
  if isToolRes then
    return none
  let text := extract_text_from_content content
  if text.toList.isEmpty || text.toList.length < 5 then
    return none
  let stripped := pyStrip text.toList
  if (match stripped with | c :: _ => c == '<' | [] => false) then
    return none
  let prompt_type := classify_prompt text
  let timestamp ← pyGetD entry "timestamp" (.pstr "")
  return some ⟨text, prompt_type, timestamp⟩

/-- The extractor loop over the log entries, accumulating the prompt list.
An exception at any entry is caught by the surrounding `try`, so the
prompts accumulated so far are returned. -/
def extractLoop : List PyVal → List PromptRec → List PromptRec
  | [], acc => acc
  | e :: es, acc =>
      match processEntry e with
      | .error _ => acc
      | .ok none => extractLoop es acc
      | .ok (some pr) => extractLoop es (acc ++ [pr])

/-- `extract_user_prompts`: extract all user prompts from one session.
The session file content is represented by the outcome of
`parse_session_file` (an excluded collaborator): `.error` when parsing the
session file raises.  All exceptions are caught; a parse failure (or a
non-dict parse result, or a non-list `loglines` value, whose iteration
raises before any prompt is collected) yields the empty list. -/
def extract_user_prompts (parsed : Except String PyVal) : List PromptRec :=
  match parsed with
  | .error _ => []
  | .ok data =>
      match pyGetD data "loglines" (.plist []) with
      | .error _ => []
      | .ok v =>
          match v with
          | .plist entries => extractLoop entries []
          | _ => []

-- ## Corpus collection (`extract_all_prompts`)

/-- One session as handed over by the excluded discovery/parsing layer:
its path, stem, modification time, and the outcome of parsing its file. -/
structure Session where
  path : String
  stem : String
  mtime : Int
  parsed : Except String PyVal

/-- One project as returned by `find_all_sessions`. -/
structure Project where
  name : String
  sessions : List Session

/-- A session bundle yielded by `extract_all_prompts`. -/
structure SessionBundle where
  session_id : String
  project : String
  session_path : String
  mtime : Int
  prompts : List PromptRec

/-- The loop condition `limit and session_count >= limit`: `None` and `0`
are falsy, so they never stop the walk. -/
def limitReached (limit : Option Int) (count : Nat) : Bool :=
  match limit with
  | none => false
  | some n => n != 0 && (count : Int) ≥ n

/-- The generator body of `extract_all_prompts` over the flattened
(project name, session) sequence, threading `session_count`.  Hitting the
limit is the generator's `return`, ending the whole walk. -/
def extractAllGo (limit : Option Int) :
    List (String × Session) → Nat → List SessionBundle
  | [], _ => []
  | (pname, s) :: rest, count =>
      if limitReached limit count then []
      else
        let prompts := extract_user_prompts s.parsed
        if prompts.isEmpty then extractAllGo limit rest count
        else
          ⟨s.stem, pname, s.path, s.mtime, prompts⟩ ::
            extractAllGo limit rest (count + 1)

/-- The nested project/session loops flattened into one sequence, in
traversal order. -/
def sessionsOf (projects : List Project) : List (String × Session) :=
  projects.flatMap (fun pr => pr.sessions.map (fun s => (pr.name, s)))

/-- `extract_all_prompts`: walk all sessions of all projects, skip sessions
with no prompts, and stop once `session_count` reaches a truthy limit. -/
def extract_all_prompts (projects : List Project) (limit : Option Int) :
    List SessionBundle :=
  extractAllGo limit (sessionsOf projects) 0

-- ## Result merging (`merge_pattern_results`)

/-- `"parse_error" in result` for a raw batch result (a dict produced by
`analyze_prompts_batch`); membership on a non-dict raw result is a shape
error. -/
def hasParseError (v : PyVal) : Except String Bool :=
  match v with
  | .pdict kvs => .ok (kvs.any (fun kv => kv.1 == "parse_error"))
  | _ => .error "TypeError"

/-- Total Boolean version of the parse-error test, agreeing with
`hasParseError` on every raw result it accepts. -/
def hasParseErrorB (v : PyVal) : Bool :=
  match v with
  | .pdict kvs => kvs.any (fun kv => kv.1 == "parse_error")
  | _ => false

/-- `p.get(k, dflt)` for a string-valued field of a raw pattern object,
with a shape error when the stored value is not a string. -/
def getStrD (p : PyVal) (k : String) (dflt : String) : Except String String := do
  let v ← pyGetD p k (.pstr dflt)
  asStr v

/-- Build one `Pattern` from a raw pattern object: `approved` is unset,
`confidence` defaults to `"low"` and `category` to `"general"`. -/
def mkMergedPattern (p : PyVal) : Except String Pattern := do
  let summary ← getStrD p "summary" ""
  let examples ← asStrList (← pyGetD p "examples" (.plist []))
  let confidence ← getStrD p "confidence" "low"
  let category ← getStrD p "category" "general"
  return { summary := summary, examples := examples, confidence := confidence,
           category := category, approved := none }

/-- Extract the patterns contributed by one raw batch result. -/
def batchPatterns (v : PyVal) : Except String (List Pattern) := do
  let raw ← asList (← pyGetD v "patterns" (.plist []))
  exMapM mkMergedPattern raw

/-- The loop over the custom-category objects of one raw batch result:
non-dict entries are skipped, empty names are skipped, and a repeated name
overwrites the earlier description. -/
def foldCustomCats : List PyVal → List (String × String) →
    Except String (List (String × String))
  | [], acc => .ok acc
  | cat :: rest, acc =>
      match cat with
      | .pdict kvs => do
          let name ← getStrD (.pdict kvs) "name" ""
          let desc ← getStrD (.pdict kvs) "description" ""
          if name.toList.isEmpty then foldCustomCats rest acc
          else foldCustomCats rest (dictSet acc name desc)
      | _ => foldCustomCats rest acc

/-- The custom categories contributed by one raw batch result, folded into
the accumulated dict. -/
def batchCustomCats (v : PyVal) (acc : List (String × String)) :
    Except String (List (String × String)) := do
  let raw ← asList (← pyGetD v "custom_categories" (.plist []))
  foldCustomCats raw acc

/-- The merge loop over the raw batch results, accumulating patterns and
custom categories; results flagged with a parse error are skipped
entirely. -/
def mergeGo : List PyVal → List Pattern → List (String × String) →
    Except String (List Pattern × List (String × String))
  | [], pats, cats => .ok (pats, cats)
  | v :: vs, pats, cats => do
      if ← hasParseError v then
        mergeGo vs pats cats
      else
        let newPats ← batchPatterns v
        let cats' ← batchCustomCats v cats
        mergeGo vs (pats ++ newPats) cats'

/-- `merge_pattern_results`: merge the raw batch results into one
`AnalysisResult` (counts stay at their dataclass defaults here; the caller
fills them in afterwards). -/
def merge_pattern_results (results : List PyVal) :
    Except String AnalysisResult := do
  let (pats, cats) ← mergeGo results [] []
  return { patterns := pats, custom_categories := cats }

-- ## Serialization (`Pattern.to_dict` / `from_dict`, `AnalysisResult.to_dict` / `from_dict`)

/-- `Pattern.to_dict` (`dataclasses.asdict`): the canonical dict shape of a
pattern, with `approved` serialized as `None`/`True`/`False`. -/
def Pattern.to_dict (p : Pattern) : PyVal :=
  .pdict
    [ ("summary", .pstr p.summary),
      ("examples", .plist (p.examples.map PyVal.pstr)),
      ("confidence", .pstr p.confidence),
      ("category", .pstr p.category),
      ("approved", match p.approved with
                   | none => .pnone
                   | some b => .pbool b) ]

/-- The `approved` field read back from its serialized form. -/
def asTriState (v : PyVal) : Except String (Option Bool) :=
  match v with
  | .pnone => .ok none
  | .pbool b => .ok (some b)
  | _ => .error "TypeError"

/-- `Pattern.from_dict` (`cls(**data)`) on the canonical `asdict` shape:
all five fields, in dataclass field order, with their declared types. -/
def Pattern.from_dict (v : PyVal) : Except String Pattern :=
  match v with
  | .pdict [ ("summary", .pstr s), ("examples", ex), ("confidence", .pstr c),
             ("category", .pstr cat), ("approved", ap) ] => do
      let examples ← asStrList ex
      let approved ← asTriState ap
      return { summary := s, examples := examples, confidence := c,
               category := cat, approved := approved }
  | _ => .error "TypeError"

/-- `AnalysisResult.to_dict`: the persisted JSON document shape. -/
def AnalysisResult.to_dict (r : AnalysisResult) : PyVal :=
  .pdict
    [ ("patterns", .plist (r.patterns.map Pattern.to_dict)),
      ("custom_categories", .pdict (r.custom_categories.map (fun kv => (kv.1, .pstr kv.2)))),
      ("total_prompts_analyzed", .pint r.total_prompts_analyzed),
      ("sessions_analyzed", .pint r.sessions_analyzed) ]

/-- A string-to-string dict read back from its serialized form. -/
def asStrDict (v : PyVal) : Except String (List (String × String)) :=
  match v with
  | .pdict kvs => exMapM (fun kv => (asStr kv.2).map (fun s => (kv.1, s))) kvs
  | _ => .error "TypeError"

/-- A Python int read back from its serialized form. -/
def asInt (v : PyVal) : Except String Int :=
  match v with
  | .pint n => .ok n
  | _ => .error "TypeError"

/-- `AnalysisResult.from_dict`: rebuild the result from the persisted
document, with the source's `data.get(..., default)` fallbacks. -/
def AnalysisResult.from_dict (v : PyVal) : Except String AnalysisResult := do
  let rawPatterns ← asList (← pyGetD v "patterns" (.plist []))
  let patterns ← exMapM Pattern.from_dict rawPatterns
  let custom ← asStrDict (← pyGetD v "custom_categories" (.pdict []))
  let total ← asInt (← pyGetD v "total_prompts_analyzed" (.pint 0))
  let sessions ← asInt (← pyGetD v "sessions_analyzed" (.pint 0))
  return { patterns := patterns, custom_categories := custom,
           total_prompts_analyzed := total, sessions_analyzed := sessions }

-- ## Rendering (`knowledge_bank.py`)

/-- Group patterns by category into an insertion-ordered dict of lists
(first-encounter key order, per-key encounter order). -/
def groupInsert (groups : List (String × List Pattern)) (p : Pattern) :
    List (String × List Pattern) :=
  if groups.any (fun g => g.1 == p.category) then
    groups.map (fun g => if g.1 == p.category then (g.1, g.2 ++ [p]) else g)
  else groups ++ [(p.category, [p])]

/-- `patterns_by_category`: the grouping loop of the renderers. -/
def groupByCategory (ps : List Pattern) : List (String × List Pattern) :=
  ps.foldl groupInsert []

/-- Look a category up in the grouped dict (`.get(category, [])`). -/
def lookupGroup (groups : List (String × List Pattern)) (cat : String) :
    List Pattern :=
  match groups.find? (fun g => g.1 == cat) with
  | some g => g.2
  | none => []

/-- The knowledge bank's per-pattern filter: approved or still
unreviewed. -/
def approvedOrUnset (r : AnalysisResult) : List Pattern :=
  r.patterns.filter (fun p => p.approved == none || p.approved == some true)

/-- `confidence_order.get(p.confidence, 3)`: the per-pattern sort key
(high 0, medium 1, low 2, anything else 3). -/
def confKey (p : Pattern) : Nat :=
  if p.confidence == "high" then 0
  else if p.confidence == "medium" then 1
  else if p.confidence == "low" then 2
  else 3

/-- The sorting relation induced by the confidence key. -/
def confLE (p q : Pattern) : Prop := confKey p ≤ confKey q

instance : DecidableRel confLE := fun p q => Nat.decLe (confKey p) (confKey q)

instance : IsTotal Pattern confLE := ⟨fun p q => Nat.le_total (confKey p) (confKey q)⟩

instance : IsTrans Pattern confLE := ⟨fun _ _ _ => Nat.le_trans⟩

/-- `patterns.sort(key=...)`: Python's stable sort by the confidence key,
embedded as the (also stable) insertion sort under `confLE`. -/
def sortByConf (ps : List Pattern) : List Pattern := List.insertionSort confLE ps

/-- The confidence glyph of a pattern (`.get(confidence, neutral)`). -/
def confidenceEmoji (c : String) : String :=
  if c == "high" then "🟢"
  else if c == "medium" then "🟡"
  else if c == "low" then "⚪"
  else "⚪"

/-- The groups of the knowledge bank's qualifying patterns. -/
def kbGroups (r : AnalysisResult) : List (String × List Pattern) :=
  groupByCategory (approvedOrUnset r)

/-- `custom_cats`: grouped category names that are not predefined. -/
def kbCustomCats (r : AnalysisResult) : List String :=
  ((kbGroups r).map Prod.fst).filter (fun c => !(predefinedOrder.contains c))

/-- `ordered_cats`: predefined categories with patterns, in declared
order, followed by the custom categories sorted alphabetically. -/
def kbOrderedCats (r : AnalysisResult) : List String :=
  predefinedOrder.filter (fun c => ((kbGroups r).map Prod.fst).contains c) ++
    List.insertionSort (· ≤ ·) (kbCustomCats r)

/-- Truncate one example to 100 characters with an ellipsis marker. -/
def truncateExample (ex : String) : String :=
  if ex.toList.length > 100 then ⟨ex.toList.take 97⟩ ++ "..." else ex

/-- `category.replace("_", " ").title()` on the ASCII category labels:
every `_` becomes a space and the first letter of each word is
uppercased. -/
def titleCase (s : String) : String :=
  let toUpper := fun c : Char =>
    if 'a' ≤ c ∧ c ≤ 'z' then Char.ofNat (c.toNat - 32) else c
  let rec go : List Char → Bool → List Char
    | [], _ => []
    | c :: t, atWordStart =>
        let c' := if c == '_' then ' ' else c
        if isPyWord c' then
          (if atWordStart then toUpper c' else c') :: go t false
        else
          c' :: go t true
  ⟨go s.toList true⟩

/-- The rendered lines of one knowledge-bank pattern entry. -/
def kbPatternLines (p : Pattern) : List String :=
  ("- **" ++ p.summary ++ "** " ++ confidenceEmoji p.confidence) ::
    (p.examples.take 3).map
      (fun ex => "  - _\x22" ++ truncateExample ex ++ "\x22_") ++ [""]

/-- The rendered lines of one knowledge-bank category section. -/
def kbSectionLines (r : AnalysisResult) (category : String) : List String :=
  let patterns := sortByConf (lookupGroup (kbGroups r) category)
  if patterns.isEmpty then []
  else
    let desc :=
      match (r.custom_categories ++ PREDEFINED_CATEGORIES).find?
          (fun kv => kv.1 == category) with
      | some kv => kv.2
      | none => ""
    ("## " ++ titleCase category) ::
      (if desc.isEmpty then [] else ["*" ++ desc ++ "*"]) ++ [""] ++
      ((patterns.map kbPatternLines).flatten)

/-- The knowledge bank's header lines (the generation timestamp is passed
in as `now`). -/
def kbHeader (now : String) (r : AnalysisResult) : List String :=
  [ "# My Claude Patterns", "",
    "> Auto-generated from " ++ toString r.sessions_analyzed ++ " sessions",
    "> " ++ toString r.total_prompts_analyzed ++ " prompts analyzed",
    "> Last updated: " ++ now, "" ]

/-- The knowledge bank's confidence legend lines. -/
def kbLegend : List String :=
  [ "---", "",
    "**Confidence:** 🟢 High (3+ occurrences) | 🟡 Medium (2 occurrences) | ⚪ Low (inferred)" ]

/-- `generate_knowledge_bank`: the full Markdown knowledge bank. -/
def generate_knowledge_bank (now : String) (r : AnalysisResult) : String :=
  if (approvedOrUnset r).isEmpty then
    String.intercalate "\n" (kbHeader now r ++
      ["*No patterns discovered yet. Run more sessions to build your knowledge bank.*"])
  else
    String.intercalate "\n" (kbHeader now r ++
      ((kbOrderedCats r).map (kbSectionLines r)).flatten ++ kbLegend)

/-- The compact preference file's per-pattern filter
(`(p.approved is None or p.approved is True) and p.confidence == "high"`). -/
def claudeMdPatterns (r : AnalysisResult) : List Pattern :=
  r.patterns.filter
    (fun p => (p.approved == none || p.approved == some true) &&
      p.confidence == "high")

/-- The rendered lines of one compact-file category section. -/
def claudeMdSectionLines (g : String × List Pattern) : List String :=
  ("## " ++ titleCase g.1) :: "" :: g.2.map (fun p => "- " ++ p.summary) ++ [""]

/-- `generate_claude_md`: the compact preference file. -/
def generate_claude_md (r : AnalysisResult) : String :=
  let header :=
    [ "# Project Preferences", "",
      "<!-- Auto-generated from Claude Code session analysis -->", "" ]
  let hi := claudeMdPatterns r
  if hi.isEmpty then
    String.intercalate "\n" (header ++ ["*No high-confidence patterns discovered yet.*"])
  else
    String.intercalate "\n"
      (header ++ ((groupByCategory hi).map claudeMdSectionLines).flatten)

-- ## Review engine (`review_cli.py`)

/-- One scripted user response of the interactive review loop.  The
`pickCategory` action carries the selection-dialog outcome and the two
follow-up text answers (used only when the selection is `"(custom)"`);
`none` is a cancelled dialog. -/
inductive ReviewAction where
  | accept
  | reject
  | edit (newSummary : Option String)
  | pickCategory (choice : Option String) (customName : Option String)
      (customDesc : Option String)
  | skip
  | save
deriving DecidableEq, Repr

/-- Python truthiness of an optional string answer: a cancelled dialog
(`None`) and the empty string are falsy. -/
def optTruthy (s : Option String) : Bool :=
  match s with
  | some t => !t.isEmpty
  | none => false

/-- Apply one non-terminating review action to the current pattern and the
custom-category dict. -/
def applyAction (p : Pattern) (cats : List (String × String)) :
    ReviewAction → Pattern × List (String × String)
  | .accept => ({ p with approved := some true }, cats)
  | .reject => ({ p with approved := some false }, cats)
  | .edit newSummary =>
      (if optTruthy newSummary then { p with summary := newSummary.getD p.summary }
       else p, cats)
  | .pickCategory choice customName customDesc =>
      let newCat := if choice == some "(custom)" then customName else choice
      let cats' :=
        if choice == some "(custom)" && optTruthy customName && optTruthy customDesc
        then dictSet cats (customName.getD "") (customDesc.getD "")
        else cats
      (if optTruthy newCat then { p with category := newCat.getD p.category }
       else p, cats')
  | .skip => (p, cats)
  | .save => (p, cats)

/-- The interactive review loop: walk the patterns in stored order,
consume one scripted response per still-unreviewed pattern, and stop at a
Save (or cancelled) response — or when the script runs out (a cancelled
dialog), leaving the remaining patterns untouched. -/
def reviewGo : List Pattern → List ReviewAction → List (String × String) →
    List Pattern × List (String × String)
  | [], _, cats => ([], cats)
  | p :: ps, script, cats =>
      if p.approved ≠ none then
        let (ps', cats') := reviewGo ps script cats
        (p :: ps', cats')
      else
          match script with
          | [] => (p :: ps, cats)
          | a :: rest =>
              if a == ReviewAction.save then (p :: ps, cats)
              else
                let (p', cats') := applyAction p cats a
                let (ps', cats'') := reviewGo ps rest cats'
                (p' :: ps', cats'')

/-- `review_patterns_interactive`, with the user's responses supplied as a
script (persistence of progress is I/O and does not affect the returned
result). -/
def review_patterns_interactive (script : List ReviewAction)
    (r : AnalysisResult) : AnalysisResult :=
  let (ps, cats) := reviewGo r.patterns script r.custom_categories
  { r with patterns := ps, custom_categories := cats }

/-- The per-pattern update of `quick_approve_all`. -/
def approveIfUnset (p : Pattern) : Pattern :=
  if p.approved == none then { p with approved := some true } else p

/-- `quick_approve_all`: accept every still-unreviewed pattern. -/
def quick_approve_all (r : AnalysisResult) : AnalysisResult :=
  { r with patterns := r.patterns.map approveIfUnset }

/-- The per-pattern update of `quick_approve_high_confidence`. -/
def approveIfUnsetHigh (p : Pattern) : Pattern :=
  if p.approved == none && p.confidence == "high" then
    { p with approved := some true }
  else p

/-- `quick_approve_high_confidence`: accept every still-unreviewed
high-confidence pattern. -/
def quick_approve_high_confidence (r : AnalysisResult) : AnalysisResult :=
  { r with patterns := r.patterns.map approveIfUnsetHigh }

-- ## Statement vocabulary and concrete example inputs

/-- The review-engine approval invariant relating the patterns before and
after an operation: positions line up, and at each position the approval
either is unchanged or started out unset. -/
def approvedOnlyFromUnset (old new : List Pattern) : Prop :=
  new.length = old.length ∧
    ∀ (i : Nat) (hn : i < new.length) (ho : i < old.length),
      (new.get ⟨i, hn⟩).approved = (old.get ⟨i, ho⟩).approved ∨
        (old.get ⟨i, ho⟩).approved = none

/-- An example analysis result with a mix of decided and undecided
patterns, used to witness the review-engine theorems. -/
def reviewExample : AnalysisResult :=
  { patterns :=
      [ { summary := "a", examples := [], confidence := "low",
          category := "tools", approved := none },
        { summary := "b", examples := [], confidence := "high",
          category := "tools", approved := some false },
        { summary := "c", examples := [], confidence := "high",
          category := "tools", approved := none } ],
    custom_categories := [] }

/-- An example review script: accept one pattern, change another's
category to a new custom one, then save. -/
def reviewScript : List ReviewAction :=
  [ .accept, .pickCategory (some "(custom)") (some "mycat") (some "mydesc"),
    .save ]

/-- An unreviewed high-confidence pattern. -/
def unsetHighPattern : Pattern :=
  { summary := "Use tabs", examples := [], confidence := "high",
    category := "coding_style", approved := none }

/-- A result whose only pattern is high-confidence but still unreviewed. -/
def unsetHighExample : AnalysisResult := { patterns := [unsetHighPattern] }

/-- `exIsOk`: a fallible computation succeeded. -/
def exIsOk (x : Except String α) : Bool :=
  match x with
  | .ok _ => true
  | .error _ => false

/-- The prompt records produced by the error-free entries of a log-entry
sequence (the yield of the extractor loop over those entries). -/
def entryPromptsOf (es : List PyVal) : List PromptRec :=
  es.filterMap (fun x =>
    match processEntry x with
    | .ok o => o
    | .error _ => none)

/-- A well-formed user log entry carrying a plain-text prompt. -/
def goodUserEntry : PyVal :=
  .pdict [ ("type", .pstr "user"),
           ("message", .pdict [("content", .pstr "No, use camelCase")]),
           ("timestamp", .pstr "t1") ]

/-- A session that parses, yields one prompt from its first log entry, and
then raises on its second log entry (a non-dict entry, whose `entry.get`
raises `AttributeError`). -/
def partialFailureSession : Except String PyVal :=
  .ok (.pdict [("loglines", .plist [goodUserEntry, .pint 0])])

/-- The raw category label a merged pattern receives from its source
pattern object: the object's `category` string, or the `"general"` default
bucket when the field is missing (junk values fall back to the default;
they make the merge raise anyway). -/
def rawCategoryOf (p : PyVal) : String :=
  match pyGetD p "category" (.pstr "general") with
  | .ok (.pstr s) => s
  | _ => "general"

/-- The raw category labels of one raw batch result's pattern objects. -/
def resultRawCategories (v : PyVal) : List String :=
  match pyGetD v "patterns" (.plist []) with
  | .ok (.plist ps) => ps.map rawCategoryOf
  | _ => []

/-- All raw category labels contributed by a list of raw batch results. -/
def sourceCategories (results : List PyVal) : List String :=
  results.flatMap resultRawCategories

/-- The merge of a batch whose only pattern object has no category field:
one pattern in the `"general"` bucket, no custom categories. -/
def mergedMissingCategory : AnalysisResult :=
  { patterns := [ { summary := "s", examples := [], confidence := "low",
                    category := "general", approved := none } ],
    custom_categories := [] }

/-- The merge of `[validBatchTwo, errorSentinel, validBatchOne]`: the three
patterns of the two valid batches, in per-batch order. -/
def mergedThree : AnalysisResult :=
  { patterns :=
      [ { summary := "s1", examples := [], confidence := "high",
          category := "testing", approved := none },
        { summary := "s2", examples := ["e1"], confidence := "low",
          category := "general", approved := none },
        { summary := "s3", examples := [], confidence := "low",
          category := "general", approved := none } ],
    custom_categories := [("api_design", "d")] }

/-- The patterns of one raw batch result, as a total function (junk on
shapes that make the merge raise). -/
def batchPatternsD (v : PyVal) : List Pattern :=
  match batchPatterns v with
  | .ok ps => ps
  | .error _ => []

/-- The custom-category fold of one raw batch result, as a total function
(the accumulator is kept on shapes that make the merge raise). -/
def batchCustomCatsD (v : PyVal) (acc : List (String × String)) :
    List (String × String) :=
  match batchCustomCats v acc with
  | .ok c => c
  | .error _ => acc

/-- A valid raw batch result with two pattern objects. -/
def validBatchTwo : PyVal :=
  .pdict [ ("patterns", .plist
      [ .pdict [ ("summary", .pstr "s1"), ("confidence", .pstr "high"),
                 ("category", .pstr "testing") ],
        .pdict [ ("summary", .pstr "s2"), ("examples", .plist [.pstr "e1"]) ] ]) ]

/-- An error sentinel as returned for an unparseable model reply. -/
def errorSentinel : PyVal :=
  .pdict [ ("raw_response", .pstr "not json"), ("parse_error", .pstr "boom") ]

/-- A valid raw batch result with one pattern object and one custom
category. -/
def validBatchOne : PyVal :=
  .pdict [ ("patterns", .plist [.pdict [("summary", .pstr "s3")]]),
           ("custom_categories", .plist
             [.pdict [("name", .pstr "api_design"), ("description", .pstr "d")]]) ]

/-- A raw batch result whose only pattern object has no category field, so
the merged pattern lands in the `"general"` default bucket. -/
def missingCategoryBatch : PyVal :=
  .pdict [("patterns", .plist [.pdict [("summary", .pstr "s")]])]

/-- An example project list for the corpus-collector theorems: some
sessions yield prompts, one yields none, one fails to parse. -/
def projectsExample : List Project :=
  [ { name := "proj-a",
      sessions :=
        [ { path := "a/s1.jsonl", stem := "s1", mtime := 1,
            parsed := .ok (.pdict [("loglines", .plist [goodUserEntry])]) },
          { path := "a/s2.jsonl", stem := "s2", mtime := 2,
            parsed := .error "unparseable" } ] },
    { name := "proj-b",
      sessions :=
        [ { path := "b/s3.jsonl", stem := "s3", mtime := 3,
            parsed := .ok (.pdict [("loglines", .plist [goodUserEntry])]) } ] } ]

/-- An example result exercising the knowledge-bank ordering: predefined
and custom categories, mixed confidences, one rejected pattern. -/
def kbExample : AnalysisResult :=
  { patterns :=
      [ { summary := "Zed", examples := [], confidence := "low",
          category := "zcustom", approved := some true },
        { summary := "Use tabs", examples := ["a"], confidence := "high",
          category := "coding_style", approved := none },
        { summary := "Med", examples := [], confidence := "medium",
          category := "coding_style", approved := some false },
        { summary := "Odd", examples := [], confidence := "certain",
          category := "acustom", approved := some true } ],
    custom_categories := [("zcustom", "Z cat")] }

-- ## Theorems

lemma approveIfUnset_idem (p : Pattern) :
    approveIfUnset (approveIfUnset p) = approveIfUnset p := by
  unfold approveIfUnset
  rcases h : p.approved with _ | b <;> simp [h]

/-- C8: applying `quick_approve_all` twice yields the same result as
applying it once — the second application changes no pattern, since the
first left no pattern unset. -/
theorem quick_approve_all_idempotent (r : AnalysisResult) :
    quick_approve_all (quick_approve_all r) = quick_approve_all r := by
  unfold quick_approve_all
  simp [List.map_map]
  intro p _
  exact approveIfUnset_idem p

/-- C4: every text whose lowercase form starts with `"no,"` or
`"actually,"` classifies as `"correction"` — whatever the rest of the text
contains (in particular an instruction trigger such as `"always"`), since
correction rules are checked first — and the empty string classifies as
`"general"`. -/
theorem classify_prompt_correction_priority :
    (∀ (text : String) (rest : List Char),
        lowerChars text.toList = "no,".toList ++ rest ∨
          lowerChars text.toList = "actually,".toList ++ rest →
        classify_prompt text = "correction") ∧
    classify_prompt "" = "general" := by
  constructor
  · intro text rest h
    have hne : text.toList.isEmpty = false := by
      rcases h with h | h <;>
      · cases ht : text.toList with
        | nil => rw [ht] at h; simp [lowerChars] at h
        | cons a t => simp [ht]
    unfold classify_prompt
    rw [hne]
    simp only [Bool.false_eq_true, if_false]
    have hcond : correctionMatchers.any (fun m => m (lowerChars text.toList)) = true := by
      rcases h with h | h
      · have h' : lowerChars text.data = 'n' :: 'o' :: ',' :: rest := h
        simp [h', correctionMatchers, anchoredThenSep, List.cons_prefix_cons,
          List.nil_prefix]
      · have h' : lowerChars text.data =
            'a' :: 'c' :: 't' :: 'u' :: 'a' :: 'l' :: 'l' :: 'y' :: ',' :: rest := h
        simp [h', correctionMatchers, anchoredThenSep, List.cons_prefix_cons,
          List.nil_prefix]
    simp only [hcond, if_true]
  · rfl

/-- Witness for C4: a concrete prompt starting with `"No,"` and containing
`"always"` classifies as a correction. -/
theorem classify_prompt_correction_priority_witness :
    classify_prompt "No, always use tabs" = "correction" :=
  classify_prompt_correction_priority.1 "No, always use tabs"
    " always use tabs".toList (Or.inl (by decide))

lemma exOkBind (a : α) (f : α → Except String β) :
    (Except.ok a >>= f : Except String β) = f a := rfl

lemma asStrList_map (l : List String) :
    asStrList (.plist (l.map PyVal.pstr)) = .ok l := by
  induction l with
  | nil => rfl
  | cons s t ih =>
      simp only [asStrList, List.map_cons, exMapM, asStr, exOkBind] at *
      simp [ih, exOkBind]

lemma pattern_from_to (p : Pattern) : Pattern.from_dict p.to_dict = .ok p := by
  rcases p with ⟨s, ex, c, cat, ap⟩
  simp only [Pattern.to_dict, Pattern.from_dict]
  rw [show asStrList (.plist (ex.map PyVal.pstr)) = .ok ex from asStrList_map ex]
  rcases ap with _ | b <;> simp [asTriState, exOkBind]

lemma exMapM_pattern_from_to (ps : List Pattern) :
    exMapM Pattern.from_dict (ps.map Pattern.to_dict) = .ok ps := by
  induction ps with
  | nil => rfl
  | cons p t ih => simp [exMapM, pattern_from_to, ih, exOkBind]

lemma asStrDict_map (l : List (String × String)) :
    asStrDict (.pdict (l.map (fun kv => (kv.1, .pstr kv.2)))) = .ok l := by
  induction l with
  | nil => rfl
  | cons kv t ih =>
      simp only [asStrDict, List.map_cons, exMapM, asStr, Except.map, exOkBind] at *
      simp [ih, exOkBind]

/-- C6: serializing an `AnalysisResult`, deserializing and serializing
again is lossless: deserialization recovers the result exactly (every
`approved` tri-state included), so the second serialization equals the
first. -/
theorem analysis_result_roundtrip (r : AnalysisResult) :
    AnalysisResult.from_dict r.to_dict = .ok r ∧
      (AnalysisResult.from_dict r.to_dict).map AnalysisResult.to_dict =
        .ok r.to_dict := by
  have h : AnalysisResult.from_dict r.to_dict = .ok r := by
    rcases r with ⟨ps, cats, tot, sess⟩
    simp only [AnalysisResult.to_dict, AnalysisResult.from_dict, pyGetD]
    simp [List.find?, exMapM_pattern_from_to, asStrDict_map, asList, asInt, exOkBind]
  exact ⟨h, by rw [h]; rfl⟩

lemma approvedOnlyFromUnset_refl (l : List Pattern) : approvedOnlyFromUnset l l :=
  ⟨rfl, fun _ _ _ => Or.inl rfl⟩

lemma approvedOnlyFromUnset_cons (p p' : Pattern) (ps ps' : List Pattern)
    (hhead : p'.approved = p.approved ∨ p.approved = none)
    (htail : approvedOnlyFromUnset ps ps') :
    approvedOnlyFromUnset (p :: ps) (p' :: ps') := by
  refine ⟨by simpa using htail.1, fun i hn ho => ?_⟩
  cases i with
  | zero => simpa using hhead
  | succ j =>
      have := htail.2 j (by simpa using hn) (by simpa using ho)
      simpa using this

lemma reviewGo_approved (ps : List Pattern) :
    ∀ (script : List ReviewAction) (cats : List (String × String)),
      approvedOnlyFromUnset ps (reviewGo ps script cats).1 := by
  induction ps with
  | nil => intro script cats; exact approvedOnlyFromUnset_refl []
  | cons p ps ih =>
      intro script cats
      by_cases hp : p.approved = none
      · rcases script with _ | ⟨a, rest⟩
        · simp only [reviewGo, hp, ne_eq, not_true_eq_false, if_false]
          exact approvedOnlyFromUnset_refl _
        · by_cases ha : a = ReviewAction.save
          · subst ha
            simp only [reviewGo, hp, ne_eq, not_true_eq_false, if_false,
              beq_self_eq_true, if_true]
            exact approvedOnlyFromUnset_refl _
          · have ha' : (a == ReviewAction.save) = false := by simpa using ha
            simp only [reviewGo, hp, ne_eq, not_true_eq_false, if_false, ha',
              Bool.false_eq_true]
            rcases hgo : reviewGo ps rest (applyAction p cats a).2 with ⟨ps', cats'⟩
            have hrec := ih rest (applyAction p cats a).2
            rw [hgo] at hrec
            simp only [hgo]
            exact approvedOnlyFromUnset_cons _ _ _ _ (Or.inr hp) hrec
      · have hp' : (p.approved ≠ none) = True := by simp [hp]
        simp only [reviewGo, hp', if_true]
        rcases hgo : reviewGo ps script cats with ⟨ps', cats'⟩
        have hrec := ih script cats
        rw [hgo] at hrec
        simp only [hgo]
        exact approvedOnlyFromUnset_cons _ _ _ _ (Or.inl rfl) hrec

lemma map_approved_monotone (f : Pattern → Pattern) (l : List Pattern)
    (hf : ∀ p, p.approved ≠ none → (f p).approved = p.approved) :
    approvedOnlyFromUnset l (l.map f) := by
  refine ⟨List.length_map l f, fun i hn ho => ?_⟩
  rw [List.get_map]
  by_cases h : (l.get ⟨i, ho⟩).approved = none
  · exact Or.inr h
  · exact Or.inl (hf _ h)

/-- C7: across every review-engine operation — a scripted interactive
review session, `quick_approve_all`, and `quick_approve_high_confidence` —
a pattern whose `approved` is already `true` or `false` keeps its value;
`approved` can only change at a pattern where it was unset. -/
theorem review_engine_approved_monotone :
    (∀ (script : List ReviewAction) (r : AnalysisResult),
        approvedOnlyFromUnset r.patterns
          (review_patterns_interactive script r).patterns) ∧
    (∀ r : AnalysisResult,
        approvedOnlyFromUnset r.patterns (quick_approve_all r).patterns) ∧
    (∀ r : AnalysisResult,
        approvedOnlyFromUnset r.patterns
          (quick_approve_high_confidence r).patterns) := by
  refine ⟨fun script r => ?_, fun r => ?_, fun r => ?_⟩
  · unfold review_patterns_interactive
    rcases hgo : reviewGo r.patterns script r.custom_categories with ⟨ps', cats'⟩
    have := reviewGo_approved r.patterns script r.custom_categories
    rw [hgo] at this
    simpa [hgo] using this
  · refine map_approved_monotone _ _ (fun p hp => ?_)
    unfold approveIfUnset
    have : (p.approved == none) = false := by
      rcases h : p.approved with _ | b
      · exact absurd h hp
      · simp [h]
    simp [this]
  · refine map_approved_monotone _ _ (fun p hp => ?_)
    unfold approveIfUnsetHigh
    have : (p.approved == none) = false := by
      rcases h : p.approved with _ | b
      · exact absurd h hp
      · simp [h]
    simp [this]

/-- Witness for C7: the invariant holds at a concrete result and review
script. -/
theorem review_engine_approved_monotone_witness :
    approvedOnlyFromUnset reviewExample.patterns
        (review_patterns_interactive reviewScript reviewExample).patterns ∧
      approvedOnlyFromUnset reviewExample.patterns
        (quick_approve_all reviewExample).patterns ∧
      approvedOnlyFromUnset reviewExample.patterns
        (quick_approve_high_confidence reviewExample).patterns :=
  ⟨review_engine_approved_monotone.1 reviewScript reviewExample,
    review_engine_approved_monotone.2.1 reviewExample,
    review_engine_approved_monotone.2.2 reviewExample⟩

/-- C1 counterexample: the compact preference file includes a
high-confidence pattern whose `approved` is still unset — both in the
filtered pattern list and in the rendered text — refuting that only
`approved == true` patterns are included. -/
theorem generate_claude_md_includes_unset :
    unsetHighPattern ∈ claudeMdPatterns unsetHighExample ∧
      unsetHighPattern.approved ≠ some true ∧
      containsSeq "- Use tabs".toList (generate_claude_md unsetHighExample).toList
        = true := by
  refine ⟨by decide, by decide, by decide⟩

/-- C1 amended: the compact preference file includes exactly those
patterns whose confidence is `"high"` and whose `approved` is `true` or
still unset; patterns with `approved = false` or another confidence are
excluded. -/
theorem generate_claude_md_inclusion (r : AnalysisResult) (p : Pattern) :
    p ∈ claudeMdPatterns r ↔
      p ∈ r.patterns ∧ (p.approved = none ∨ p.approved = some true) ∧
        p.confidence = "high" := by
  simp [claudeMdPatterns, List.mem_filter, and_assoc]


lemma exBindOkInv {x : Except String α} {f : α → Except String β} {b : β}
    (h : (x >>= f) = .ok b) : ∃ a, x = .ok a ∧ f a = .ok b := by
  cases x with
  | ok a => exact ⟨a, rfl, h⟩
  | error e => exact Except.noConfusion h

lemma hasParseErrorB_eq {v : PyVal} {b : Bool} (h : hasParseError v = .ok b) :
    hasParseErrorB v = b := by
  cases v <;> simp [hasParseError, hasParseErrorB] at h ⊢ <;> exact h

lemma getStrD_category {p : PyVal} {s : String}
    (h : getStrD p "category" "general" = .ok s) : rawCategoryOf p = s := by
  unfold getStrD at h
  obtain ⟨v, hv, h2⟩ := exBindOkInv h
  unfold rawCategoryOf
  rw [hv]
  cases v <;> simp [asStr] at h2 <;> simp [h2]

lemma mkMergedPattern_category {p : PyVal} {q : Pattern}
    (h : mkMergedPattern p = .ok q) : q.category = rawCategoryOf p := by
  unfold mkMergedPattern at h
  obtain ⟨s, _, h⟩ := exBindOkInv h
  obtain ⟨w, _, h⟩ := exBindOkInv h
  obtain ⟨ex, _, h⟩ := exBindOkInv h
  obtain ⟨c, _, h⟩ := exBindOkInv h
  obtain ⟨cat, hcat, h⟩ := exBindOkInv h
  cases h
  exact (getStrD_category hcat).symm

lemma exMapM_mem {f : α → Except String β} :
    ∀ {l : List α} {out : List β}, exMapM f l = .ok out →
      ∀ b ∈ out, ∃ a ∈ l, f a = .ok b := by
  intro l
  induction l with
  | nil =>
      intro out h b hb
      cases h
      exact absurd hb (List.not_mem_nil b)
  | cons a t ih =>
      intro out h b hb
      obtain ⟨b0, hb0, h⟩ := exBindOkInv h
      obtain ⟨bs, hbs, h⟩ := exBindOkInv h
      cases h
      rcases List.mem_cons.mp hb with h | h
      · exact ⟨a, List.mem_cons_self a t, h ▸ hb0⟩
      · obtain ⟨a', ha', hfa⟩ := ih hbs b h
        exact ⟨a', List.mem_cons_of_mem a ha', hfa⟩

lemma batchPatterns_categories {v : PyVal} {nps : List Pattern}
    (h : batchPatterns v = .ok nps) :
    ∀ p ∈ nps, p.category ∈ resultRawCategories v := by
  unfold batchPatterns at h
  obtain ⟨w, hw, h⟩ := exBindOkInv h
  obtain ⟨raw, hraw, h⟩ := exBindOkInv h
  intro p hp
  obtain ⟨a, ha, hfa⟩ := exMapM_mem h p hp
  have hcat := mkMergedPattern_category hfa
  have hwl : ∃ xs, w = .plist xs ∧ raw = xs := by
    cases w <;> simp [asList] at hraw <;> exact ⟨_, rfl, hraw.symm⟩
  obtain ⟨xs, hxs, hrx⟩ := hwl
  subst hxs hrx
  unfold resultRawCategories
  rw [hw]
  rw [hcat]
  exact List.mem_map_of_mem rawCategoryOf ha

lemma mergeGo_categories :
    ∀ (vs : List PyVal) (pats : List Pattern) (cats : List (String × String))
      (P : List Pattern) (C : List (String × String)),
      mergeGo vs pats cats = .ok (P, C) →
      ∀ p ∈ P, p ∈ pats ∨ p.category ∈ sourceCategories vs := by
  intro vs
  induction vs with
  | nil =>
      intro pats cats P C h p hp
      cases h
      exact Or.inl hp
  | cons v t ih =>
      intro pats cats P C h p hp
      rw [show mergeGo (v :: t) pats cats = (hasParseError v >>= fun pe =>
            if pe then mergeGo t pats cats
            else (batchPatterns v >>= fun newPats =>
              batchCustomCats v cats >>= fun cats' =>
                mergeGo t (pats ++ newPats) cats')) from rfl] at h
      obtain ⟨pe, hpe, h⟩ := exBindOkInv h
      have hsrc : sourceCategories (v :: t) =
          resultRawCategories v ++ sourceCategories t := by
        simp [sourceCategories]
      cases pe with
      | true =>
          rw [if_pos rfl] at h
          rcases ih pats cats P C h p hp with h1 | h1
          · exact Or.inl h1
          · exact Or.inr (hsrc ▸ List.mem_append_right _ h1)
      | false =>
          rw [if_neg Bool.false_ne_true] at h
          obtain ⟨newPats, hnew, h⟩ := exBindOkInv h
          obtain ⟨cats', hcats, h⟩ := exBindOkInv h
          rcases ih _ _ P C h p hp with h1 | h1
          · rcases List.mem_append.mp h1 with h2 | h2
            · exact Or.inl h2
            · exact Or.inr (hsrc ▸ List.mem_append_left _
                (batchPatterns_categories hnew p h2))
          · exact Or.inr (hsrc ▸ List.mem_append_right _ h1)

/-- C3: every pattern merged by `merge_pattern_results` carries the raw
category string of its source pattern object (`"general"` when the field
is missing) — amended from the original claim, since that string need not
be a key of the predefined table or of `custom_categories`: the
`"general"` default bucket itself is not a predefined key. -/
theorem merge_category_provenance :
    (∀ (results : List PyVal) (r : AnalysisResult),
        merge_pattern_results results = .ok r →
        ∀ p ∈ r.patterns, p.category ∈ sourceCategories results) ∧
      "general" ∉ predefinedOrder := by
  constructor
  · intro results r h p hp
    unfold merge_pattern_results at h
    obtain ⟨⟨P, C⟩, hgo, h⟩ := exBindOkInv h
    cases h
    rcases mergeGo_categories results [] [] P C hgo p hp with h1 | h1
    · exact absurd h1 (List.not_mem_nil p)
    · exact h1
  · decide

/-- C3 counterexample: merging a batch whose pattern object has no
category field yields a pattern in the `"general"` bucket, which is a key
of neither the predefined table nor the result's `custom_categories`. -/
theorem merge_category_outside_tables :
    merge_pattern_results [missingCategoryBatch] = .ok mergedMissingCategory ∧
      ¬ (∀ p ∈ mergedMissingCategory.patterns,
          p.category ∈ predefinedOrder ∨
            p.category ∈ mergedMissingCategory.custom_categories.map Prod.fst) := by
  constructor
  · rfl
  · decide

/-- Witness for C3: the provenance theorem applied to the concrete
missing-category batch. -/
theorem merge_category_provenance_witness :
    ∀ p ∈ mergedMissingCategory.patterns,
      p.category ∈ sourceCategories [missingCategoryBatch] :=
  merge_category_provenance.1 [missingCategoryBatch] mergedMissingCategory rfl

lemma mergeGo_flat :
    ∀ (vs : List PyVal) (pats : List Pattern) (cats : List (String × String))
      (P : List Pattern) (C : List (String × String)),
      mergeGo vs pats cats = .ok (P, C) →
      P = pats ++ (vs.filter (fun v => !hasParseErrorB v)).flatMap batchPatternsD ∧
        C = (vs.filter (fun v => !hasParseErrorB v)).foldl
          (fun acc v => batchCustomCatsD v acc) cats := by
  intro vs
  induction vs with
  | nil =>
      intro pats cats P C h
      cases h
      simp
  | cons v t ih =>
      intro pats cats P C h
      rw [show mergeGo (v :: t) pats cats = (hasParseError v >>= fun pe =>
            if pe then mergeGo t pats cats
            else (batchPatterns v >>= fun newPats =>
              batchCustomCats v cats >>= fun cats' =>
                mergeGo t (pats ++ newPats) cats')) from rfl] at h
      obtain ⟨pe, hpe, h⟩ := exBindOkInv h
      have hb := hasParseErrorB_eq hpe
      cases pe with
      | true =>
          rw [if_pos rfl] at h
          obtain ⟨h1, h2⟩ := ih pats cats P C h
          simp [List.filter_cons, hb, h1, h2]
      | false =>
          rw [if_neg Bool.false_ne_true] at h
          obtain ⟨newPats, hnew, h⟩ := exBindOkInv h
          obtain ⟨cats', hcats, h⟩ := exBindOkInv h
          obtain ⟨h1, h2⟩ := ih _ _ P C h
          have hnewD : batchPatternsD v = newPats := by
            unfold batchPatternsD
            rw [hnew]
          have hcatsD : batchCustomCatsD v cats = cats' := by
            unfold batchCustomCatsD
            rw [hcats]
          simp [List.filter_cons, hb, h1, h2, hnewD, hcatsD, List.append_assoc]

/-- C5: `merge_pattern_results` skips every raw result carrying a
parse-error sentinel — contributing neither patterns nor custom categories
from it — and keeps the patterns of the remaining results in per-batch
order; merging [valid batch with 2 patterns, error sentinel, valid batch
with 1 pattern] yields exactly 3 patterns. -/
theorem merge_skips_error_sentinels :
    (∀ (results : List PyVal) (r : AnalysisResult),
        merge_pattern_results results = .ok r →
        r.patterns =
            (results.filter (fun v => !hasParseErrorB v)).flatMap batchPatternsD ∧
          r.custom_categories =
            (results.filter (fun v => !hasParseErrorB v)).foldl
              (fun acc v => batchCustomCatsD v acc) []) ∧
      merge_pattern_results [validBatchTwo, errorSentinel, validBatchOne] =
        .ok mergedThree ∧
      mergedThree.patterns.length = 3 := by
  refine ⟨?_, rfl, rfl⟩
  intro results r h
  unfold merge_pattern_results at h
  obtain ⟨⟨P, C⟩, hgo, h⟩ := exBindOkInv h
  cases h
  obtain ⟨h1, h2⟩ := mergeGo_flat results [] [] P C hgo
  exact ⟨by simpa using h1, h2⟩

/-- Witness for C5: the merge characterization applied at the concrete
three-result list. -/
theorem merge_skips_error_sentinels_witness :
    mergedThree.patterns =
        ([validBatchTwo, errorSentinel, validBatchOne].filter
          (fun v => !hasParseErrorB v)).flatMap batchPatternsD ∧
      mergedThree.custom_categories =
        ([validBatchTwo, errorSentinel, validBatchOne].filter
          (fun v => !hasParseErrorB v)).foldl
          (fun acc v => batchCustomCatsD v acc) [] :=
  merge_skips_error_sentinels.1 [validBatchTwo, errorSentinel, validBatchOne]
    mergedThree rfl

lemma extractLoop_append (es1 : List PyVal) :
    ∀ (e : PyVal) (es2 : List PyVal) (acc : List PromptRec),
      (∀ x ∈ es1, exIsOk (processEntry x) = true) →
      exIsOk (processEntry e) = false →
      extractLoop (es1 ++ e :: es2) acc = acc ++ entryPromptsOf es1 := by
  induction es1 with
  | nil =>
      intro e es2 acc _ he
      cases hp : processEntry e with
      | ok o => rw [hp] at he; simp [exIsOk] at he
      | error msg => simp [extractLoop, hp, entryPromptsOf]
  | cons x t ih =>
      intro e es2 acc hall he
      have hx := hall x (List.mem_cons_self x t)
      cases hp : processEntry x with
      | error msg => rw [hp] at hx; simp [exIsOk] at hx
      | ok o =>
          cases o with
          | none =>
              simp only [List.cons_append, extractLoop, hp]
              show extractLoop (t ++ e :: es2) acc = acc ++ entryPromptsOf (x :: t)
              rw [ih e es2 acc (fun y hy => hall y (List.mem_cons_of_mem x hy)) he]
              simp [entryPromptsOf, List.filterMap_cons, hp]
          | some pr =>
              simp only [List.cons_append, extractLoop, hp]
              show extractLoop (t ++ e :: es2) (acc ++ [pr]) =
                acc ++ entryPromptsOf (x :: t)
              rw [ih e es2 (acc ++ [pr])
                (fun y hy => hall y (List.mem_cons_of_mem x hy)) he]
              simp [entryPromptsOf, List.filterMap_cons, hp]

/-- C2: a parse failure yields an empty prompt list, and an error raised
while processing a log entry is caught, yielding exactly the prompts
collected from the entries before the failing one — amended from the
original claim, since those earlier prompts are kept rather than
discarded; the exception never propagates. -/
theorem extract_user_prompts_error_policy :
    (∀ msg, extract_user_prompts (.error msg) = []) ∧
      (∀ (data : PyVal) (es1 : List PyVal) (e : PyVal) (es2 : List PyVal),
        pyGetD data "loglines" (.plist []) = .ok (.plist (es1 ++ e :: es2)) →
        (∀ x ∈ es1, exIsOk (processEntry x) = true) →
        exIsOk (processEntry e) = false →
        extract_user_prompts (.ok data) = entryPromptsOf es1) := by
  constructor
  · intro msg; rfl
  · intro data es1 e es2 hl hall he
    show (match pyGetD data "loglines" (PyVal.plist []) with
          | Except.error _ => ([] : List PromptRec)
          | Except.ok v =>
              match v with
              | PyVal.plist entries => extractLoop entries []
              | _ => []) = entryPromptsOf es1
    rw [hl]
    exact (extractLoop_append es1 e es2 [] hall he).trans (by simp)

/-- C2 counterexample: a session whose second log entry raises (a
non-dict entry) still returns the prompt of its first entry, so a session
on which extraction raises an error does not always yield an empty prompt
list. -/
theorem extract_user_prompts_partial_nonempty :
    exIsOk (processEntry (PyVal.pint 0)) = false ∧
      extract_user_prompts partialFailureSession ≠ [] := by
  constructor
  · rfl
  · have h : extract_user_prompts partialFailureSession =
        [⟨"No, use camelCase", "correction", .pstr "t1"⟩] := rfl
    rw [h]
    exact List.cons_ne_nil _ _

/-- Witness for C2: the error policy applied to a concrete session with
one good entry followed by a raising entry. -/
theorem extract_user_prompts_error_policy_witness :
    extract_user_prompts
        (.ok (.pdict [("loglines", .plist [goodUserEntry, .pint 0])])) =
      entryPromptsOf [goodUserEntry] :=
  extract_user_prompts_error_policy.2
    (.pdict [("loglines", .plist [goodUserEntry, .pint 0])])
    [goodUserEntry] (.pint 0) [] rfl
    (fun x hx => by rw [List.mem_singleton.mp hx]; rfl) rfl

lemma extractAllGo_zero (l : List (String × Session)) :
    ∀ c, extractAllGo (some 0) l c = extractAllGo none l c := by
  induction l with
  | nil => intro c; rfl
  | cons hd rest ih =>
      intro c
      obtain ⟨pname, s⟩ := hd
      unfold extractAllGo
      rw [show limitReached (some 0) c = false by simp [limitReached]]
      rw [show limitReached none c = false from rfl]
      by_cases hp : (extract_user_prompts s.parsed).isEmpty <;>
        simp [hp, ih]

lemma extractAllGo_stop (rest : List (String × Session)) (n : Int) (c : Nat)
    (hn : n ≠ 0) (hc : (c : Int) ≥ n) : extractAllGo (some n) rest c = [] := by
  cases rest with
  | nil => rfl
  | cons hd t =>
      obtain ⟨pname, s⟩ := hd
      unfold extractAllGo
      rw [show limitReached (some n) c = true by
        simp [limitReached, hn]
        omega]
      rfl

lemma extractAllGo_some_take (l : List (String × Session)) :
    ∀ (n : Int) (c : Nat), 0 < n → (c : Int) < n →
      extractAllGo (some n) l c = (extractAllGo none l c).take (n - c).toNat := by
  induction l with
  | nil => intro n c _ _; simp [extractAllGo]
  | cons hd rest ih =>
      intro n c hn hc
      obtain ⟨pname, s⟩ := hd
      unfold extractAllGo
      rw [show limitReached (some n) c = false by
        simp [limitReached]
        omega]
      rw [show limitReached none c = false from rfl]
      simp only [Bool.false_eq_true, if_false]
      by_cases hp : (extract_user_prompts s.parsed).isEmpty
      · simp only [hp, if_true]
        exact ih n c hn hc
      · simp only [hp, Bool.false_eq_true, if_false]
        have htake : (n - c).toNat = (n - (c + 1 : Nat)).toNat + 1 := by omega
        rw [htake, List.take_succ_cons]
        by_cases h2 : ((c + 1 : Nat) : Int) < n
        · rw [ih n (c + 1) hn h2]
        · have hceq : ((c + 1 : Nat) : Int) ≥ n := by omega
          rw [extractAllGo_stop rest n (c + 1) (by omega) hceq]
          have : (n - (c + 1 : Nat)).toNat = 0 := by omega
          rw [this]
          simp

/-- C10: in `extract_all_prompts` a limit of 0 disables the cap entirely
(same yield as no limit), and a positive limit yields exactly the first
`limit` bundles of the uncapped walk — so sessions producing zero prompts
never consume the cap, because only yielded sessions are counted. -/
theorem extract_all_prompts_limit_semantics (projects : List Project) :
    extract_all_prompts projects (some 0) = extract_all_prompts projects none ∧
      ∀ n : Int, 0 < n →
        extract_all_prompts projects (some n) =
          (extract_all_prompts projects none).take n.toNat := by
  constructor
  · exact extractAllGo_zero (sessionsOf projects) 0
  · intro n hn
    have h := extractAllGo_some_take (sessionsOf projects) n 0 hn (by exact_mod_cast hn)
    simpa using h

/-- Witness for C10: the limit semantics at a concrete project list
containing a zero-prompt (unparseable) session. -/
theorem extract_all_prompts_limit_semantics_witness :
    extract_all_prompts projectsExample (some 0) =
        extract_all_prompts projectsExample none ∧
      extract_all_prompts projectsExample (some 1) =
        (extract_all_prompts projectsExample none).take (1 : Int).toNat :=
  ⟨(extract_all_prompts_limit_semantics projectsExample).1,
    (extract_all_prompts_limit_semantics projectsExample).2 1 (by decide)⟩

/-- C9: whenever some pattern is approved or unset, the knowledge bank
renders its category sections in `kbOrderedCats` order: predefined
categories first, a subsequence of their fixed declared order, followed by
custom categories sorted alphabetically and disjoint from the predefined
ones; within each section patterns are sorted by the confidence key
(high, medium, low, then unrecognized last), and every unrecognized
confidence value renders with the neutral marker. -/
theorem generate_knowledge_bank_ordering (now : String) (r : AnalysisResult)
    (h : approvedOrUnset r ≠ []) :
    generate_knowledge_bank now r =
        String.intercalate "\n" (kbHeader now r ++
          ((kbOrderedCats r).map (kbSectionLines r)).flatten ++ kbLegend) ∧
      kbOrderedCats r =
        predefinedOrder.filter (fun c => ((kbGroups r).map Prod.fst).contains c) ++
          List.insertionSort (· ≤ ·) (kbCustomCats r) ∧
      (predefinedOrder.filter
          (fun c => ((kbGroups r).map Prod.fst).contains c)).Sublist
        predefinedOrder ∧
      (List.insertionSort (· ≤ ·) (kbCustomCats r)).Sorted (· ≤ ·) ∧
      (∀ c ∈ List.insertionSort (· ≤ ·) (kbCustomCats r), c ∉ predefinedOrder) ∧
      (∀ cat : String, (sortByConf (lookupGroup (kbGroups r) cat)).Sorted confLE) ∧
      (∀ c : String, c ≠ "high" → c ≠ "medium" → c ≠ "low" →
        confidenceEmoji c = "⚪") := by
  refine ⟨?_, rfl, List.filter_sublist _, ?_, ?_, ?_, ?_⟩
  · unfold generate_knowledge_bank
    rw [if_neg (by simpa [List.isEmpty_iff] using h)]
  · exact List.sorted_insertionSort _ _
  · intro c hc
    have hmem : c ∈ kbCustomCats r :=
      (List.perm_insertionSort (· ≤ ·) (kbCustomCats r)).mem_iff.mp hc
    have := List.of_mem_filter hmem
    simpa using this
  · intro cat
    exact List.sorted_insertionSort confLE _
  · intro c h1 h2 h3
    simp [confidenceEmoji, h1, h2, h3]

/-- Witness for C9: the ordering theorem at a concrete result with
predefined and custom categories, mixed confidences and an unrecognized
confidence value. -/
theorem generate_knowledge_bank_ordering_witness :
    approvedOrUnset kbExample ≠ [] ∧
      (generate_knowledge_bank "2026-01-01" kbExample =
          String.intercalate "\n" (kbHeader "2026-01-01" kbExample ++
            ((kbOrderedCats kbExample).map (kbSectionLines kbExample)).flatten ++
            kbLegend) ∧
        kbOrderedCats kbExample =
          predefinedOrder.filter
              (fun c => ((kbGroups kbExample).map Prod.fst).contains c) ++
            List.insertionSort (· ≤ ·) (kbCustomCats kbExample) ∧
        (predefinedOrder.filter
            (fun c => ((kbGroups kbExample).map Prod.fst).contains c)).Sublist
          predefinedOrder ∧
        (List.insertionSort (· ≤ ·) (kbCustomCats kbExample)).Sorted (· ≤ ·) ∧
        (∀ c ∈ List.insertionSort (· ≤ ·) (kbCustomCats kbExample),
          c ∉ predefinedOrder) ∧
        (∀ cat : String,
          (sortByConf (lookupGroup (kbGroups kbExample) cat)).Sorted confLE) ∧
        (∀ c : String, c ≠ "high" → c ≠ "medium" → c ≠ "low" →
          confidenceEmoji c = "⚪")) :=
  ⟨by decide, generate_knowledge_bank_ordering "2026-01-01" kbExample (by decide)⟩
